import Mathlib

/-- One establishment-year record: the numeric fields used by the cleaning
and KPI stages.  Column names in the source: `annual_average_employees`,
`total_hours_worked`, `total_injuries`, `total_dafw_cases`,
`total_djtr_cases`, `total_dafw_days`, `total_djtr_days`, `total_deaths`,
`year_filing_for`. -/
structure Row where
  employees : ℚ
  hours : ℚ
  injuries : ℚ
  dafwCases : ℚ
  djtrCases : ℚ
  dafwDays : ℚ
  djtrDays : ℚ
  deaths : ℚ
  year : ℚ
  deriving DecidableEq

/-- `injury_rate_per_100_employees` (02_data_cleaning.py, lines 130-134):
`np.where(employees > 0, injuries / employees * 100, 0)`. -/
def injuryRate (r : Row) : ℚ :=
  if 0 < r.employees then r.injuries / r.employees * 100 else 0

/-- `trir` (04_kpi_development.py, lines 25-29):
`np.where(hours > 0, injuries / hours * 200000, 0)`. -/
def trir (r : Row) : ℚ :=
  if 0 < r.hours then r.injuries / r.hours * 200000 else 0

/-- `ltifr` (04_kpi_development.py, lines 31-35):
`np.where(hours > 0, dafw_cases / hours * 1000000, 0)`. -/
def ltifr (r : Row) : ℚ :=
  if 0 < r.hours then r.dafwCases / r.hours * 1000000 else 0

/-- `dart_rate` (04_kpi_development.py, lines 37-41):
`np.where(hours > 0, (dafw_cases + djtr_cases) / hours * 200000, 0)`. -/
def dartRate (r : Row) : ℚ :=
  if 0 < r.hours then (r.dafwCases + r.djtrCases) / r.hours * 200000 else 0

/-- `severity_rate` (04_kpi_development.py, lines 43-47):
`np.where(injuries > 0, (dafw_days + djtr_days) / injuries, 0)`. -/
def severityRate (r : Row) : ℚ :=
  if 0 < r.injuries then (r.dafwDays + r.djtrDays) / r.injuries else 0

/-- `fatality_rate` (04_kpi_development.py, lines 49-53):
`np.where(employees > 0, deaths / employees * 100000, 0)`. -/
def fatalityRate (r : Row) : ℚ :=
  if 0 < r.employees then r.deaths / r.employees * 100000 else 0

/-- `hours_per_employee` (02_data_cleaning.py, lines 57-61):
`np.where(employees > 0, hours / employees, 0)`. -/
def hoursPerEmployee (r : Row) : ℚ :=
  if 0 < r.employees then r.hours / r.employees else 0

/-- Mask `excessive_hours_per_employee` (02_data_cleaning.py, line 64). -/
def excessiveHoursPerEmployee (r : Row) : Prop := 4000 < hoursPerEmployee r

/-- Mask `zero_employees_with_hours` (02_data_cleaning.py, line 65). -/
def zeroEmployeesWithHours (r : Row) : Prop := r.employees = 0 ∧ 0 < r.hours

/-- Mask `injuries_exceed_employees` (02_data_cleaning.py, line 66). -/
def injuriesExceedEmployees (r : Row) : Prop := r.employees * 2 < r.injuries

/-- Mask `unrealistically_low_hours` (02_data_cleaning.py, line 67). -/
def unrealisticallyLowHours (r : Row) : Prop := r.hours < 2000 ∧ 0 < r.injuries

/-- Mask `extreme_injury_density` (02_data_cleaning.py, line 68):
`injuries / hours > 0.1`.  In the source this is float division: when
`hours = 0` the quotient is `+inf` (mask true) for `injuries > 0` and
`NaN` (mask false) for `injuries = 0`; for nonzero hours the rational
quotient agrees with the float comparison. -/
def extremeInjuryDensity (r : Row) : Prop :=
  (r.hours = 0 ∧ 0 < r.injuries) ∨ (r.hours ≠ 0 ∧ 1 / 10 < r.injuries / r.hours)

/-- Mask `part_time_seasonal_bias` (02_data_cleaning.py, line 69). -/
def partTimeSeasonalBias (r : Row) : Prop := hoursPerEmployee r < 1500

/-- Union of the six implausibility masks.  The source computes all six
masks on the unfiltered frame and then drops rows mask by mask
(lines 63-81); since pandas aligns the boolean masks on the row index,
the result is exactly the removal of every row matching at least one
mask. -/
def impossiblePattern (r : Row) : Prop :=
  excessiveHoursPerEmployee r ∨ zeroEmployeesWithHours r ∨ injuriesExceedEmployees r ∨
    unrealisticallyLowHours r ∨ extremeInjuryDensity r ∨ partTimeSeasonalBias r

instance : DecidablePred excessiveHoursPerEmployee := fun r => by
  unfold excessiveHoursPerEmployee; infer_instance

instance : DecidablePred zeroEmployeesWithHours := fun r => by
  unfold zeroEmployeesWithHours; infer_instance

instance : DecidablePred injuriesExceedEmployees := fun r => by
  unfold injuriesExceedEmployees; infer_instance

instance : DecidablePred unrealisticallyLowHours := fun r => by
  unfold unrealisticallyLowHours; infer_instance

instance : DecidablePred extremeInjuryDensity := fun r => by
  unfold extremeInjuryDensity; infer_instance

instance : DecidablePred partTimeSeasonalBias := fun r => by
  unfold partTimeSeasonalBias; infer_instance

instance : DecidablePred impossiblePattern := fun r => by
  unfold impossiblePattern; infer_instance

/-- The implausibility pass (02_data_cleaning.py, lines 63-81): keep
exactly the rows matching none of the six masks. -/
def filterImpossible (t : List Row) : List Row :=
  t.filter fun r => decide (¬ impossiblePattern r)

/-- Ascending sort of a rational column. -/
def sortQ (l : List ℚ) : List ℚ := List.insertionSort (· ≤ ·) l

/-- `Series.quantile(0.99)` with pandas' default linear interpolation:
with the column sorted ascending as `v_0 ≤ ... ≤ v_(n-1)` and
`h = 0.99 * (n - 1)`, the quantile is
`v_⌊h⌋ + (h - ⌊h⌋) * (v_(⌊h⌋+1) - v_(⌊h⌋+1 exists ? that : anything))`;
the interpolation weight `h - ⌊h⌋` is zero whenever `⌊h⌋ + 1` is out of
range, so the default value never contributes.  An empty column has no
quantile; the source's clip loop never uses it (the guard count is 0),
and we return 0. -/
def quantile99 (l : List ℚ) : ℚ :=
  if l.length = 0 then 0
  else
    (sortQ l).getD (⌊99 / 100 * ((l.length : ℚ) - 1)⌋).toNat 0 +
      (99 / 100 * ((l.length : ℚ) - 1) - ((⌊99 / 100 * ((l.length : ℚ) - 1)⌋).toNat : ℚ)) *
        ((sortQ l).getD ((⌊99 / 100 * ((l.length : ℚ) - 1)⌋).toNat + 1) 0 -
          (sortQ l).getD (⌊99 / 100 * ((l.length : ℚ) - 1)⌋).toNat 0)

def setEmployees (r : Row) (v : ℚ) : Row := { r with employees := v }

def setHours (r : Row) (v : ℚ) : Row := { r with hours := v }

def setInjuries (r : Row) (v : ℚ) : Row := { r with injuries := v }

def setDafwDays (r : Row) (v : ℚ) : Row := { r with dafwDays := v }

def setDjtrDays (r : Row) (v : ℚ) : Row := { r with djtrDays := v }

/-- One iteration of the winsorization loop (02_data_cleaning.py,
lines 85-90): compute the column's 99th percentile on the current table,
and clip above it only when at least one value exceeds it (clipping with
no exceeding value would change nothing anyway). -/
def clipCol (get : Row → ℚ) (set : Row → ℚ → Row) (t : List Row) : List Row :=
  if t.any fun r => decide (quantile99 (t.map get) < get r) then
    t.map fun r => set r (min (get r) (quantile99 (t.map get)))
  else t

/-- The winsorization step (02_data_cleaning.py, lines 85-90): the clip
loop over `numeric_cols = [annual_average_employees, total_hours_worked,
total_injuries, total_dafw_days, total_djtr_days]`, in that order. -/
def winsorize (t : List Row) : List Row :=
  clipCol (·.djtrDays) setDjtrDays
    (clipCol (·.dafwDays) setDafwDays
      (clipCol (·.injuries) setInjuries
        (clipCol (·.hours) setHours
          (clipCol (·.employees) setEmployees t))))

/-- The per-row effect of the whole winsorization loop on a table `t`:
each of the five columns is capped at its own 99th percentile computed on
`t` (see `winsorize_eq_map`). -/
def capFn (t : List Row) (r : Row) : Row :=
  { r with
    employees := min r.employees (quantile99 (t.map (·.employees)))
    hours := min r.hours (quantile99 (t.map (·.hours)))
    injuries := min r.injuries (quantile99 (t.map (·.injuries)))
    dafwDays := min r.dafwDays (quantile99 (t.map (·.dafwDays)))
    djtrDays := min r.djtrDays (quantile99 (t.map (·.djtrDays))) }

/-- The numeric core of the cleaning stage: implausibility filter followed
by winsorization.  The remaining cleaning steps (text trimming, state-code
normalization, missing-value drops, sector-code filter) only remove rows
or rewrite non-numeric fields and never change the five numeric columns. -/
def cleanNumeric (t : List Row) : List Row := winsorize (filterImpossible t)

/-- Mean of a column (`pandas` `mean`); a group produced by `groupby`
is never empty, and for the empty list the value (0 by `ℚ` convention
`x / 0 = 0`) is unused. -/
def mean (l : List ℚ) : ℚ := l.sum / l.length

/-- numpy's round-half-to-even of a rational (the rounding used by
`DataFrame.round` / `Series.round`), idealized over exact rationals. -/
def roundHalfEven (x : ℚ) : ℤ :=
  if Int.fract x < 1 / 2 then ⌊x⌋
  else if 1 / 2 < Int.fract x then ⌊x⌋ + 1
  else if ⌊x⌋ % 2 = 0 then ⌊x⌋ else ⌊x⌋ + 1

/-- `.round(2)`: round to two decimal places, half to even. -/
def round2 (x : ℚ) : ℚ := (roundHalfEven (100 * x) : ℚ) / 100

/-- `risk_score` of a sector group (04_kpi_development.py, lines 85-89):
`(trir_mean * 0.4 + dart_rate_mean * 0.3 + fatality_rate_mean * 0.3).round(2)`,
where `trir_mean`, `dart_rate_mean` and `fatality_rate_mean` are the group
means already rounded to two decimals by the `.round(2)` on the
aggregation at line 79. -/
def riskScore (g : List Row) : ℚ :=
  round2 (round2 (mean (g.map trir)) * (4 / 10) + round2 (mean (g.map dartRate)) * (3 / 10) +
    round2 (mean (g.map fatalityRate)) * (3 / 10))

inductive RiskLevel where
  | low
  | medium
  | high
  deriving DecidableEq

/-- `risk_level` (04_kpi_development.py, lines 92-96):
`pd.cut(score, bins=[0, 2, 5, inf], labels=[Low, Medium, High])`.
`pd.cut` uses right-closed intervals `(0, 2]`, `(2, 5]`, `(5, inf]`; a
score lying in no interval (in particular a score of exactly 0, since the
first interval is left-open) is assigned no label (`NaN`). -/
def riskLevel (s : ℚ) : Option RiskLevel :=
  if 0 < s ∧ s ≤ 2 then some .low
  else if 2 < s ∧ s ≤ 5 then some .medium
  else if 5 < s then some .high
  else none

inductive Trend where
  | worsening
  | improving
  | stable
  deriving DecidableEq

/-- `trend_direction` (04_kpi_development.py, lines 131-134):
`np.where(slope > 0.1, Worsening, np.where(slope < -0.1, Improving, Stable))`. -/
def trendDirection (slope : ℚ) : Trend :=
  if 1 / 10 < slope then .worsening
  else if slope < -(1 / 10) then .improving
  else .stable

/-- The determinant `n·Σx² − (Σx)²` of the degree-1 least-squares normal
equations: nonzero exactly when the point list has at least two distinct
x-values. -/
def designDet (pts : List (ℚ × ℚ)) : ℚ :=
  (pts.length : ℚ) * (pts.map fun p => p.1 * p.1).sum -
    (pts.map (·.1)).sum * (pts.map (·.1)).sum

/-- Exact-arithmetic value of `np.polyfit(x, y, 1)[0]` (04_kpi_development.py,
line 128).  For a full-rank design — for degree 1, at least two distinct
x-values, i.e. `designDet pts ≠ 0` — the least-squares line has the
classical slope `(n·Σxy − Σx·Σy) / (n·Σx² − (Σx)²)`.  For a single sample
`(x, y)` (rank-deficient: numpy emits a RankWarning and returns the
minimum-norm least-squares solution of its column-scaled system), the
Vandermonde matrix `[[x, 1]]` is scaled by the column norms `[|x|, 1]` to
`[[sign x, 1]]`, whose minimum-norm solution is `[sign x · y / 2, y / 2]`;
unscaling gives the slope `y / (2·x)`.  The remaining singular shapes (an
empty point list, or n ≥ 2 points all sharing one x) cannot arise here,
because the pipeline fits over per-(sector, year) group means, whose
x-values are distinct by construction (`yearlyMeans_nodup_fst`); they are
given the value 0. -/
def polyfitSlope (pts : List (ℚ × ℚ)) : ℚ :=
  if designDet pts ≠ 0 then
    ((pts.length : ℚ) * (pts.map fun p => p.1 * p.2).sum -
      (pts.map (·.1)).sum * (pts.map (·.2)).sum) / designDet pts
  else
    match pts with
    | [(x, y)] => if x = 0 then 0 else y / (2 * x)
    | _ => 0

/-- The ordinary-least-squares slope as stated by the spec ("fit an
ordinary least-squares line"), in its textbook centered form
`Σ(x−x̄)(y−ȳ) / Σ(x−x̄)²`. -/
def olsSlope (pts : List (ℚ × ℚ)) : ℚ :=
  let xbar := mean (pts.map (·.1))
  let ybar := mean (pts.map (·.2))
  (pts.map fun p => (p.1 - xbar) * (p.2 - ybar)).sum / (pts.map fun p => (p.1 - xbar) ^ 2).sum

/-- `yearly_trends` for one sector (04_kpi_development.py, lines 121-124):
group the sector's rows by filing year and take the mean TRIR of each
year, giving the (year, mean TRIR) pairs the trend line is fitted to.
The x-values (years) are distinct by construction. -/
def yearlyMeans (rows : List Row) : List (ℚ × ℚ) :=
  ((rows.map (·.year)).dedup).map fun y =>
    (y, mean ((rows.filter fun r => decide (r.year = y)).map trir))

/-- `trend_slope` of one sector (04_kpi_development.py, lines 127-130):
`np.polyfit` applied to the sector's (year, mean TRIR) pairs. -/
def sectorSlope (rows : List Row) : ℚ := polyfitSlope (yearlyMeans rows)

/-- The diagnostic-sample step (02_data_cleaning.py, line 166):
`df_clean.sample(10000, random_state=42)`.  pandas `sample` without
replacement raises `ValueError` when the requested size exceeds the
population, modelled as `none`; otherwise it returns a fixed-size
selection determined entirely by the fixed seed `random_state=42`
(modelled as an unspecified deterministic selection). -/
def sampleStep (t : List Row) : Option (List Row) :=
  if t.length < 10000 then none else some (t.take 10000)

/-- One run of the numeric core of the cleaning stage, as a function of
the ambient randomness of the environment (modelled as an arbitrary
stream `ℕ → ℕ`) and the input table.  The outputs are the cleaned table,
the logged count of rows dropped by the implausibility filter, and the
diagnostic sample.  The stage never reads the ambient randomness: its
only stochastic operation seeds its own generator with the fixed
`random_state=42` (02_data_cleaning.py, line 166). -/
def cleanerRun (_ambientRandom : ℕ → ℕ) (t : List Row) : List Row × ℕ × Option (List Row) :=
  let u := cleanNumeric t
  (u, t.length - (filterImpossible t).length, sampleStep u)

/-- The spec's end-to-end example row: hours=80000, employees=40,
injuries=4, DAFW cases=2. -/
def exampleRow : Row :=
  { employees := 40, hours := 80000, injuries := 4, dafwCases := 2, djtrCases := 0,
    dafwDays := 0, djtrDays := 0, deaths := 0, year := 0 }

/-- A row on which every metric denominator is zero. -/
def zeroDenomRow : Row :=
  { employees := 0, hours := 0, injuries := 0, dafwCases := 3, djtrCases := 4,
    dafwDays := 5, djtrDays := 6, deaths := 7, year := 0 }

/-- A row whose TRIR is 1/250 = 0.004 (one injury over 50,000,000 hours)
and whose DART and fatality rates are 0: positive TRIR, so the row enters
the injury benchmark, yet all three rounded group means are 0. -/
def c2Row : Row :=
  { employees := 1, hours := 50000000, injuries := 1, dafwCases := 0, djtrCases := 0,
    dafwDays := 0, djtrDays := 0, deaths := 0, year := 0 }

/-- Two rows whose hours column is [0, 100] and whose other columns are
all zero: the first winsorization clips hours to [0, 99]; re-winsorizing
recomputes the 99th percentile on the clipped data (98.01) and clips
again. -/
def c5RowA : Row :=
  { employees := 0, hours := 0, injuries := 0, dafwCases := 0, djtrCases := 0,
    dafwDays := 0, djtrDays := 0, deaths := 0, year := 0 }

def c5RowB : Row :=
  { employees := 0, hours := 100, injuries := 0, dafwCases := 0, djtrCases := 0,
    dafwDays := 0, djtrDays := 0, deaths := 0, year := 0 }

def c6OneYear : List Row :=
  [{ employees := 1, hours := 20000, injuries := 1, dafwCases := 0, djtrCases := 0,
     dafwDays := 0, djtrDays := 0, deaths := 0, year := 2018 }]

def c6ThreeYears : List Row :=
  [{ employees := 1, hours := 200000, injuries := 1, dafwCases := 0, djtrCases := 0,
     dafwDays := 0, djtrDays := 0, deaths := 0, year := 2018 },
   { employees := 1, hours := 200000, injuries := 2, dafwCases := 0, djtrCases := 0,
     dafwDays := 0, djtrDays := 0, deaths := 0, year := 2019 },
   { employees := 1, hours := 200000, injuries := 3, dafwCases := 0, djtrCases := 0,
     dafwDays := 0, djtrDays := 0, deaths := 0, year := 2020 }]

def okRow : Row :=
  { employees := 1, hours := 2000, injuries := 0, dafwCases := 0, djtrCases := 0,
    dafwDays := 0, djtrDays := 0, deaths := 0, year := 0 }

/-! ## Helper lemmas -/

lemma sum_map_shift_sq (c : ℚ) (l : List (ℚ × ℚ)) :
    (l.map fun q => (c - q.1) * (c - q.1)).sum =
      (l.length : ℚ) * (c * c) - 2 * c * (l.map (·.1)).sum + (l.map fun q => q.1 * q.1).sum := by
  induction l with
  | nil => simp
  | cons q l ih =>
    simp only [List.map_cons, List.sum_cons, List.length_cons, ih]
    push_cast
    ring

lemma designDet_cons (p : ℚ × ℚ) (l : List (ℚ × ℚ)) :
    designDet (p :: l) = (l.map fun q => (p.1 - q.1) * (p.1 - q.1)).sum + designDet l := by
  unfold designDet
  simp only [List.map_cons, List.sum_cons, List.length_cons, sum_map_shift_sq]
  push_cast
  ring

lemma designDet_nonneg (pts : List (ℚ × ℚ)) : 0 ≤ designDet pts := by
  induction pts with
  | nil => norm_num [designDet]
  | cons p l ih =>
    rw [designDet_cons]
    have hsum : 0 ≤ (l.map fun q => (p.1 - q.1) * (p.1 - q.1)).sum :=
      List.sum_nonneg fun x hx => by
        obtain ⟨q, -, rfl⟩ := List.mem_map.mp hx
        exact mul_self_nonneg _
    linarith

lemma designDet_pos {p q : ℚ × ℚ} (l : List (ℚ × ℚ)) (hne : p.1 ≠ q.1) :
    0 < designDet (p :: q :: l) := by
  rw [designDet_cons]
  have h1 : 0 < (p.1 - q.1) * (p.1 - q.1) := mul_self_pos.mpr (sub_ne_zero.mpr hne)
  have hsum : 0 ≤ (l.map fun r => (p.1 - r.1) * (p.1 - r.1)).sum :=
    List.sum_nonneg fun x hx => by
      obtain ⟨r, -, rfl⟩ := List.mem_map.mp hx
      exact mul_self_nonneg _
  have h2 := designDet_nonneg (q :: l)
  simp only [List.map_cons, List.sum_cons]
  linarith

lemma sum_map_center_mul (a b : ℚ) (l : List (ℚ × ℚ)) :
    (l.map fun p => (p.1 - a) * (p.2 - b)).sum =
      (l.map fun p => p.1 * p.2).sum - b * (l.map (·.1)).sum - a * (l.map (·.2)).sum +
        (l.length : ℚ) * (a * b) := by
  induction l with
  | nil => simp
  | cons p l ih =>
    simp only [List.map_cons, List.sum_cons, List.length_cons, ih]
    push_cast
    ring

lemma sum_map_center_sq (a : ℚ) (l : List (ℚ × ℚ)) :
    (l.map fun p => (p.1 - a) ^ 2).sum =
      (l.map fun p => p.1 * p.1).sum - 2 * a * (l.map (·.1)).sum + (l.length : ℚ) * (a * a) := by
  induction l with
  | nil => simp
  | cons p l ih =>
    simp only [List.map_cons, List.sum_cons, List.length_cons, ih]
    push_cast
    ring

lemma polyfitSlope_eq_olsSlope {pts : List (ℚ × ℚ)} (hne : pts ≠ [])
    (hd : designDet pts ≠ 0) : polyfitSlope pts = olsSlope pts := by
  have hn : (pts.length : ℚ) ≠ 0 :=
    Nat.cast_ne_zero.mpr fun h => hne (List.length_eq_zero.mp h)
  unfold polyfitSlope
  rw [if_pos hd]
  unfold olsSlope
  simp only [mean, List.length_map]
  rw [sum_map_center_mul, sum_map_center_sq]
  unfold designDet at hd ⊢
  set n := (pts.length : ℚ) with hn_def
  set sx := (pts.map (·.1)).sum
  set sy := (pts.map (·.2)).sum
  set sxx := (pts.map fun p => p.1 * p.1).sum
  set sxy := (pts.map fun p => p.1 * p.2).sum
  have hNum : sxy - sy / n * sx - sx / n * sy + n * (sx / n * (sy / n)) =
      (n * sxy - sx * sy) / n := by
    field_simp
    ring
  have hDen : sxx - 2 * (sx / n) * sx + n * (sx / n * (sx / n)) =
      (n * sxx - sx * sx) / n := by
    field_simp
    ring
  rw [hNum, hDen, div_div_div_comm, div_self hn, div_one]

lemma yearlyMeans_map_fst (rows : List Row) :
    (yearlyMeans rows).map (·.1) = (rows.map (·.year)).dedup := by
  unfold yearlyMeans
  rw [List.map_map]
  exact List.map_id _

lemma yearlyMeans_nodup_fst (rows : List Row) : ((yearlyMeans rows).map (·.1)).Nodup := by
  rw [yearlyMeans_map_fst]
  exact List.nodup_dedup _

lemma polyfitSlope_single (x y : ℚ) (hx : x ≠ 0) : polyfitSlope [(x, y)] = y / (2 * x) := by
  have h0 : designDet [(x, y)] = 0 := by
    simp [designDet]
  unfold polyfitSlope
  rw [if_neg (by simp [h0])]
  exact if_neg hx

lemma yearlyMeans_c6OneYear : yearlyMeans c6OneYear = [(2018, 10)] := by
  norm_num [yearlyMeans, c6OneYear, List.dedup_cons_of_not_mem, mean, trir, List.filter]

lemma yearlyMeans_c6ThreeYears :
    yearlyMeans c6ThreeYears = [(2018, 1), (2019, 2), (2020, 3)] := by
  norm_num [yearlyMeans, c6ThreeYears, List.dedup_cons_of_not_mem, mean, trir, List.filter]

lemma clipCol_eq_map (get : Row → ℚ) (set : Row → ℚ → Row)
    (hset : ∀ r, set r (get r) = r) (t : List Row) :
    clipCol get set t = t.map fun r => set r (min (get r) (quantile99 (t.map get))) := by
  unfold clipCol
  split_ifs with hany
  · rfl
  · have hall : ∀ r ∈ t, get r ≤ quantile99 (t.map get) := by
      intro r hr
      by_contra hlt
      push_neg at hlt
      exact hany (List.any_eq_true.mpr ⟨r, hr, by simpa using hlt⟩)
    have hid : ∀ r ∈ t, (fun r => set r (min (get r) (quantile99 (t.map get)))) r = r := by
      intro r hr
      simp only
      rw [min_eq_left (hall r hr), hset]
    exact ((List.map_congr_left hid).trans (List.map_id t)).symm

lemma clipCol_length (get : Row → ℚ) (set : Row → ℚ → Row) (t : List Row) :
    (clipCol get set t).length = t.length := by
  unfold clipCol
  split_ifs <;> simp

lemma winsorize_eq_map (t : List Row) : winsorize t = t.map (capFn t) := by
  unfold winsorize
  rw [clipCol_eq_map (·.employees) setEmployees fun r => rfl]
  rw [clipCol_eq_map (·.hours) setHours fun r => rfl]
  rw [clipCol_eq_map (·.injuries) setInjuries fun r => rfl]
  rw [clipCol_eq_map (·.dafwDays) setDafwDays fun r => rfl]
  rw [clipCol_eq_map (·.djtrDays) setDjtrDays fun r => rfl]
  simp only [List.map_map]
  rfl

lemma sortQ_sorted (l : List ℚ) : (sortQ l).Sorted (· ≤ ·) :=
  List.sorted_insertionSort _ l

lemma sortQ_perm (l : List ℚ) : List.Perm (sortQ l) l :=
  List.perm_insertionSort _ l

lemma sortQ_length (l : List ℚ) : (sortQ l).length = l.length :=
  (sortQ_perm l).length_eq

lemma getD_eq_getElem_of_lt (s : List ℚ) {j : ℕ} (hj : j < s.length) : s.getD j 0 = s[j] := by
  rw [List.getD_eq_getElem?_getD, List.getElem?_eq_getElem hj, Option.getD_some]

lemma getD_eq_zero_of_le (s : List ℚ) {j : ℕ} (hj : s.length ≤ j) : s.getD j 0 = 0 := by
  rw [List.getD_eq_getElem?_getD, List.getElem?_eq_none hj]
  rfl

/-- In a sorted column, at least `n - j` entries are ≥ the entry at
position `j`. -/
lemma countP_ge_sub_of_sorted {s : List ℚ} (hs : s.Sorted (· ≤ ·)) {j : ℕ} (hj : j < s.length) :
    s.length - j ≤ s.countP fun v => decide (s.getD j 0 ≤ v) := by
  set p : ℚ → Bool := fun v => decide (s.getD j 0 ≤ v) with hp
  have hsplit : s.countP p = (s.take j).countP p + (s.drop j).countP p := by
    conv_lhs => rw [← List.take_append_drop j s]
    exact List.countP_append _ _ _
  have hdropSorted : (s.drop j).Sorted (· ≤ ·) :=
    List.Pairwise.sublist (List.drop_sublist j s) hs
  have hd : s.drop j = s[j] :: s.drop (j + 1) := List.drop_eq_getElem_cons hj
  have hdrop : (s.drop j).countP p = (s.drop j).length := by
    rw [List.countP_eq_length]
    intro v hv
    simp only [hp, decide_eq_true_eq]
    rw [getD_eq_getElem_of_lt s hj]
    rw [hd] at hv hdropSorted
    rcases List.mem_cons.mp hv with rfl | hv2
    · exact le_refl _
    · exact (List.sorted_cons.mp hdropSorted).1 v hv2
  have hlen : (s.drop j).length = s.length - j := List.length_drop j s
  rw [hsplit, hdrop, hlen]
  omega

/-- If at least `n - j` entries of a sorted column are ≥ `x`, then the
entry at position `j` is ≥ `x`. -/
lemma le_getD_of_countP {s : List ℚ} (hs : s.Sorted (· ≤ ·)) {x : ℚ} {j : ℕ} (hj : j < s.length)
    (hc : s.length - j ≤ s.countP fun v => decide (x ≤ v)) : x ≤ s.getD j 0 := by
  by_contra hlt
  push_neg at hlt
  rw [getD_eq_getElem_of_lt s hj] at hlt
  set p : ℚ → Bool := fun v => decide (x ≤ v) with hp
  have htake : (s.take (j + 1)).countP p = 0 := by
    rw [List.countP_eq_zero]
    intro v hv
    simp only [hp, decide_eq_true_eq, not_le]
    obtain ⟨k, hk, hkv⟩ := List.mem_iff_getElem.mp hv
    have hk2 : k < s.length := lt_of_lt_of_le hk (by rw [List.length_take]; exact min_le_right _ _)
    have hkj : k ≤ j := by
      have : k < j + 1 := lt_of_lt_of_le hk (by rw [List.length_take]; exact min_le_left _ _)
      omega
    have hsk : s[k] ≤ s[j] := by
      have := hs.rel_get_of_le (a := ⟨k, hk2⟩) (b := ⟨j, hj⟩) hkj
      simpa using this
    calc v = (s.take (j + 1))[k] := hkv.symm
    _ = s[k] := List.getElem_take s
    _ ≤ s[j] := hsk
    _ < x := hlt
  have hsplit : s.countP p = (s.take (j + 1)).countP p + (s.drop (j + 1)).countP p := by
    conv_lhs => rw [← List.take_append_drop (j + 1) s]
    exact List.countP_append _ _ _
  have hdrople : (s.drop (j + 1)).countP p ≤ s.length - (j + 1) := by
    calc (s.drop (j + 1)).countP p ≤ (s.drop (j + 1)).length := List.countP_le_length _
    _ = s.length - (j + 1) := List.length_drop _ _
  rw [hsplit, htake] at hc
  omega

/-- Order-statistic domination: if each row satisfies `a·g r ≤ b·f r`
(with `a ≥ 0`, `b > 0`), then position by position the sorted g-column is
dominated by the sorted f-column in the same ratio. -/
lemma sorted_col_scale_le {rows : List Row} {f g : Row → ℚ} {a b : ℚ}
    (ha : 0 ≤ a) (hb : 0 < b) (hfg : ∀ r ∈ rows, a * g r ≤ b * f r) (j : ℕ) :
    a * (sortQ (rows.map g)).getD j 0 ≤ b * (sortQ (rows.map f)).getD j 0 := by
  have hslen : (sortQ (rows.map g)).length = rows.length := by
    rw [sortQ_length, List.length_map]
  have hwlen : (sortQ (rows.map f)).length = rows.length := by
    rw [sortQ_length, List.length_map]
  by_cases hj : j < rows.length
  · have hjs : j < (sortQ (rows.map g)).length := by rw [hslen]; exact hj
    have hjw : j < (sortQ (rows.map f)).length := by rw [hwlen]; exact hj
    set x := (sortQ (rows.map g)).getD j 0 with hx
    have base := countP_ge_sub_of_sorted (sortQ_sorted (rows.map g)) hjs
    have hcount : (sortQ (rows.map f)).length - j ≤
        (sortQ (rows.map f)).countP fun v => decide (a * x / b ≤ v) := by
      have e1 : (sortQ (rows.map f)).countP (fun v => decide (a * x / b ≤ v)) =
          rows.countP fun r => decide (a * x / b ≤ f r) := by
        rw [(sortQ_perm (rows.map f)).countP_eq, List.countP_map]
        rfl
      have e2 : (sortQ (rows.map g)).countP (fun v => decide (x ≤ v)) =
          rows.countP fun r => decide (x ≤ g r) := by
        rw [(sortQ_perm (rows.map g)).countP_eq, List.countP_map]
        rfl
      have mono : rows.countP (fun r => decide (x ≤ g r)) ≤
          rows.countP fun r => decide (a * x / b ≤ f r) := by
        apply List.countP_mono_left
        intro r hr hle
        simp only [decide_eq_true_eq] at hle ⊢
        rw [div_le_iff₀ hb]
        have h1 : a * x ≤ a * g r := mul_le_mul_of_nonneg_left hle ha
        have h2 := hfg r hr
        linarith
      rw [e1, hwlen]
      rw [e2] at base
      rw [hslen] at base
      exact le_trans base mono
    have := le_getD_of_countP (sortQ_sorted (rows.map f)) hjw hcount
    rw [div_le_iff₀ hb] at this
    linarith
  · push_neg at hj
    rw [getD_eq_zero_of_le _ (by rw [hslen]; exact hj), getD_eq_zero_of_le _ (by rw [hwlen]; exact hj)]
    simp

/-- The linearly interpolated 99th percentile preserves scaled pointwise
domination between two columns of the same table. -/
lemma quantile99_scale_le {rows : List Row} {f g : Row → ℚ} {a b : ℚ}
    (ha : 0 ≤ a) (hb : 0 < b) (hfg : ∀ r ∈ rows, a * g r ≤ b * f r) :
    a * quantile99 (rows.map g) ≤ b * quantile99 (rows.map f) := by
  unfold quantile99
  rw [List.length_map, List.length_map]
  by_cases hn : rows.length = 0
  · rw [if_pos hn, if_pos hn]
    simp
  · rw [if_neg hn, if_neg hn]
    set hq : ℚ := 99 / 100 * ((rows.length : ℚ) - 1) with hhq
    set i : ℕ := (⌊hq⌋).toNat with hi
    have hn1 : (1 : ℚ) ≤ (rows.length : ℚ) := by
      have : 1 ≤ rows.length := Nat.one_le_iff_ne_zero.mpr hn
      exact_mod_cast this
    have hq0 : 0 ≤ hq := by
      rw [hhq]
      have : (0 : ℚ) ≤ (rows.length : ℚ) - 1 := by linarith
      positivity
    have hicast : (i : ℚ) = (⌊hq⌋ : ℚ) := by
      rw [hi]
      have : (0 : ℤ) ≤ ⌊hq⌋ := Int.floor_nonneg.mpr hq0
      exact_mod_cast Int.toNat_of_nonneg this
    have hfr0 : 0 ≤ hq - (i : ℚ) := by
      rw [hicast]
      have := Int.floor_le hq
      linarith
    have hfr1 : hq - (i : ℚ) ≤ 1 := by
      rw [hicast]
      have := Int.lt_floor_add_one hq
      push_cast at this
      linarith
    have d1 := sorted_col_scale_le ha hb hfg i
    have d2 := sorted_col_scale_le ha hb hfg (i + 1)
    have hp1 : 0 ≤ (1 - (hq - (i : ℚ))) *
        (b * (sortQ (rows.map f)).getD i 0 - a * (sortQ (rows.map g)).getD i 0) :=
      mul_nonneg (by linarith) (by linarith)
    have hp2 : 0 ≤ (hq - (i : ℚ)) *
        (b * (sortQ (rows.map f)).getD (i + 1) 0 - a * (sortQ (rows.map g)).getD (i + 1) 0) :=
      mul_nonneg hfr0 (by linarith)
    nlinarith [hp1, hp2]

lemma mem_filterImpossible_iff {t : List Row} {r : Row} :
    r ∈ filterImpossible t ↔ r ∈ t ∧ ¬ impossiblePattern r := by
  unfold filterImpossible
  rw [List.mem_filter]
  simp

/-- Every row surviving the implausibility pass has positive employees and
hours, with hours between 1500 and 4000 hours per employee. -/
lemma survivor_bounds {t : List Row} {r : Row} (hr : r ∈ filterImpossible t) :
    0 < r.employees ∧ 0 < r.hours ∧ 1500 * r.employees ≤ r.hours ∧
      r.hours ≤ 4000 * r.employees := by
  have hnp : ¬ impossiblePattern r := (mem_filterImpossible_iff.mp hr).2
  unfold impossiblePattern at hnp
  push_neg at hnp
  obtain ⟨h1, -, -, -, -, h6⟩ := hnp
  unfold excessiveHoursPerEmployee at h1
  unfold partTimeSeasonalBias at h6
  push_neg at h1
  push_neg at h6
  unfold hoursPerEmployee at h1 h6
  by_cases he : 0 < r.employees
  · rw [if_pos he] at h1 h6
    rw [le_div_iff₀ he] at h6
    rw [div_le_iff₀ he] at h1
    refine ⟨he, ?_, by linarith, by linarith⟩
    calc (0 : ℚ) < 1500 * r.employees := by positivity
    _ ≤ r.hours := by linarith
  · rw [if_neg he] at h6
    norm_num at h6

lemma filterImpossible_okRow : filterImpossible [okRow] = [okRow] := by
  norm_num [filterImpossible, List.filter, impossiblePattern, excessiveHoursPerEmployee,
    zeroEmployeesWithHours, injuriesExceedEmployees, unrealisticallyLowHours,
    extremeInjuryDensity, partTimeSeasonalBias, hoursPerEmployee, okRow]

lemma winsorize_okRow : winsorize [okRow] = [okRow] := by
  norm_num [winsorize, clipCol, quantile99, sortQ, List.insertionSort, List.orderedInsert, okRow]

/-- Each of the five winsorized columns is pointwise non-increasing under
one application of the winsorization loop. -/
lemma winsorize_col_pointwise_le (t : List Row) (get : Row → ℚ)
    (hget : ∀ r, get (capFn t r) ≤ get r) :
    List.Forall₂ (· ≤ ·) ((winsorize t).map get) (t.map get) := by
  rw [winsorize_eq_map, List.map_map]
  rw [List.forall₂_map_left_iff, List.forall₂_map_right_iff]
  exact List.forall₂_same.mpr fun r _ => hget r

/-! ## Claim theorems, witnesses and counterexamples -/

/-- C1: each of the six derived metrics is a pure, row-local function of
the row's counts computed by guarded division — `injury_rate = I/E·100`
when `E > 0` else 0, `TRIR = I/H·200000` when `H > 0` else 0,
`LTIFR = D1/H·1000000` when `H > 0` else 0, `DART = (D1+D2)/H·200000`
when `H > 0` else 0, `severity = (DAFW days + DJTR days)/I` when `I > 0`
else 0, `fatality = F/E·100000` when `E > 0` else 0 — each is exactly 0
when its denominator is 0, and the example row with hours=80000,
employees=40, injuries=4, DAFW cases=2 yields TRIR = 10 and LTIFR = 25. -/
theorem c1_metric_formulas :
    (∀ r : Row, injuryRate r = if 0 < r.employees then r.injuries / r.employees * 100 else 0) ∧
    (∀ r : Row, trir r = if 0 < r.hours then r.injuries / r.hours * 200000 else 0) ∧
    (∀ r : Row, ltifr r = if 0 < r.hours then r.dafwCases / r.hours * 1000000 else 0) ∧
    (∀ r : Row,
      dartRate r = if 0 < r.hours then (r.dafwCases + r.djtrCases) / r.hours * 200000 else 0) ∧
    (∀ r : Row,
      severityRate r = if 0 < r.injuries then (r.dafwDays + r.djtrDays) / r.injuries else 0) ∧
    (∀ r : Row, fatalityRate r = if 0 < r.employees then r.deaths / r.employees * 100000 else 0) ∧
    (∀ r : Row, r.employees = 0 → injuryRate r = 0 ∧ fatalityRate r = 0) ∧
    (∀ r : Row, r.hours = 0 → trir r = 0 ∧ ltifr r = 0 ∧ dartRate r = 0) ∧
    (∀ r : Row, r.injuries = 0 → severityRate r = 0) ∧
    trir exampleRow = 10 ∧ ltifr exampleRow = 25 := by
  refine ⟨fun r => rfl, fun r => rfl, fun r => rfl, fun r => rfl, fun r => rfl, fun r => rfl,
    ?_, ?_, ?_, ?_, ?_⟩
  · intro r h; constructor <;> simp [injuryRate, fatalityRate, h]
  · intro r h; refine ⟨?_, ?_, ?_⟩ <;> simp [trir, ltifr, dartRate, h]
  · intro r h; simp [severityRate, h]
  · norm_num [trir, exampleRow]
  · norm_num [ltifr, exampleRow]

/-- Witness for C1: the guarded-division zero cases, discharged at the
all-zero-denominator row. -/
theorem c1_metric_formulas_witness :
    injuryRate zeroDenomRow = 0 ∧ fatalityRate zeroDenomRow = 0 ∧ trir zeroDenomRow = 0 ∧
      ltifr zeroDenomRow = 0 ∧ dartRate zeroDenomRow = 0 ∧ severityRate zeroDenomRow = 0 := by
  obtain ⟨-, -, -, -, -, -, h7, h8, h9, -, -⟩ := c1_metric_formulas
  exact ⟨(h7 zeroDenomRow rfl).1, (h7 zeroDenomRow rfl).2, (h8 zeroDenomRow rfl).1,
    (h8 zeroDenomRow rfl).2.1, (h8 zeroDenomRow rfl).2.2, h9 zeroDenomRow rfl⟩

/-- C7 (code_bug evidence): on a cleaned table that has become empty, the
diagnostic-sample step `df_clean.sample(10000, random_state=42)` raises
(`none`), so the cleaning stage does not run to completion with a
"no data" result as the claim requires. -/
theorem c7_sample_raises_on_empty : sampleStep ([] : List Row) = none := rfl

/-- C8: the cleaning stage is deterministic — its outputs (the cleaned
table, the logged drop count, and the fixed-size diagnostic sample, whose
pandas generator is seeded with the fixed `random_state=42`) do not
depend on the ambient randomness of the environment, so two runs on
identical input produce identical outputs. -/
theorem c8_cleaner_deterministic :
    ∀ (rng₁ rng₂ : ℕ → ℕ) (t : List Row), cleanerRun rng₁ t = cleanerRun rng₂ t :=
  fun _ _ _ => rfl

/-- C10: the risk-classification step is partial at zero — a risk label
exists iff the score is strictly positive, and a score of exactly 0
receives no label (in particular not Low Risk), because `pd.cut`'s first
bin is the left-open interval (0, 2]. -/
theorem c10_risk_label_iff_positive :
    (∀ s : ℚ, (riskLevel s).isSome ↔ 0 < s) ∧ riskLevel 0 = none ∧
      riskLevel 0 ≠ some RiskLevel.low := by
  have hnone : riskLevel 0 = none := by norm_num [riskLevel]
  refine ⟨fun s => ?_, hnone, by rw [hnone]; simp⟩
  unfold riskLevel
  split_ifs with h1 h2 h3
  · simp only [Option.isSome_some, true_iff]; exact h1.1
  · simp only [Option.isSome_some, true_iff]; linarith [h2.1]
  · simp only [Option.isSome_some, true_iff]; linarith
  · simp only [Option.isSome_none, Bool.false_eq_true, false_iff]
    intro hlt
    rcases le_or_lt s 2 with h | h
    · exact h1 ⟨hlt, h⟩
    · rcases le_or_lt s 5 with h5 | h5
      · exact h2 ⟨h, h5⟩
      · exact h3 h5

/-- Counterexample to C2 as stated: for the group `[c2Row]` the code's
risk score is 0 — not the claimed `0.4·mean(TRIR) + 0.3·mean(DART) +
0.3·mean(fatality) = 1/625`, because the code rounds the group means and
the score to two decimals — and the group receives no risk label at all,
not the Low label the claimed `score ≤ 2 → Low` rule would give. -/
theorem c2_score_counterexample :
    riskScore [c2Row] = 0 ∧
    mean ([c2Row].map trir) * (4 / 10) + mean ([c2Row].map dartRate) * (3 / 10) +
      mean ([c2Row].map fatalityRate) * (3 / 10) = 1 / 625 ∧
    riskLevel (riskScore [c2Row]) = none := by
  have htrir : mean ([c2Row].map trir) = 1 / 250 := by norm_num [mean, trir, c2Row]
  have hdart : mean ([c2Row].map dartRate) = 0 := by norm_num [mean, dartRate, c2Row]
  have hfat : mean ([c2Row].map fatalityRate) = 0 := by norm_num [mean, fatalityRate, c2Row]
  have hfloor : ⌊(100 * (1 / 250 : ℚ))⌋ = 0 := by rw [Int.floor_eq_iff]; norm_num
  have hr0 : round2 0 = 0 := by unfold round2 roundHalfEven; rw [Int.fract]; norm_num
  have hrt : round2 (1 / 250) = 0 := by
    unfold round2 roundHalfEven; rw [Int.fract, hfloor]; norm_num
  have hscore : riskScore [c2Row] = 0 := by
    unfold riskScore
    rw [htrir, hdart, hfat, hrt, hr0]
    norm_num [hr0]
  exact ⟨hscore, by rw [htrir, hdart, hfat]; norm_num, by rw [hscore]; norm_num [riskLevel]⟩

/-- C2 as amended: the group risk score is
`round2(0.4·round2(mean TRIR) + 0.3·round2(mean DART) +
0.3·round2(mean fatality))` — the group means and the score are rounded
to two decimal places (half to even) — and the risk label is determined
by the score alone with left-open bins: `0 < score ≤ 2` maps to Low,
`2 < score ≤ 5` to Medium, `5 < score` to High, and a score of 0 or less
gets no label; in particular score 2.0 is Low, 2.01 is Medium, 5.0 is
Medium, and 5.01 is High. -/
theorem c2_risk_score_and_classification :
    (∀ g : List Row, g ≠ [] →
      riskScore g =
        round2 (round2 (mean (g.map trir)) * (4 / 10) + round2 (mean (g.map dartRate)) * (3 / 10) +
          round2 (mean (g.map fatalityRate)) * (3 / 10))) ∧
    (∀ s : ℚ, riskLevel s = some RiskLevel.low ↔ 0 < s ∧ s ≤ 2) ∧
    (∀ s : ℚ, riskLevel s = some RiskLevel.medium ↔ 2 < s ∧ s ≤ 5) ∧
    (∀ s : ℚ, riskLevel s = some RiskLevel.high ↔ 5 < s) ∧
    (∀ s : ℚ, s ≤ 0 → riskLevel s = none) ∧
    riskLevel 2 = some RiskLevel.low ∧ riskLevel (201 / 100) = some RiskLevel.medium ∧
      riskLevel 5 = some RiskLevel.medium ∧ riskLevel (501 / 100) = some RiskLevel.high := by
  refine ⟨fun g _ => rfl, fun s => ?_, fun s => ?_, fun s => ?_, fun s hs => ?_,
    by norm_num [riskLevel], by norm_num [riskLevel], by norm_num [riskLevel],
    by norm_num [riskLevel]⟩
  · constructor
    · intro h
      unfold riskLevel at h
      split_ifs at h with h1 h2 h3
      · exact h1
      · simp at h
      · simp at h
    · intro h
      unfold riskLevel
      rw [if_pos h]
  · constructor
    · intro h
      unfold riskLevel at h
      split_ifs at h with h1 h2 h3
      · simp at h
      · exact h2
      · simp at h
    · rintro ⟨hgt, hle⟩
      unfold riskLevel
      rw [if_neg (by rintro ⟨-, hc⟩; linarith), if_pos ⟨hgt, hle⟩]
  · constructor
    · intro h
      unfold riskLevel at h
      split_ifs at h with h1 h2 h3
      · simp at h
      · simp at h
      · exact h3
    · intro hgt
      unfold riskLevel
      rw [if_neg (by rintro ⟨-, hc⟩; linarith), if_neg (by rintro ⟨-, hc⟩; linarith), if_pos hgt]
  · unfold riskLevel
    rw [if_neg (by rintro ⟨h, -⟩; linarith), if_neg (by rintro ⟨h, -⟩; linarith),
      if_neg (by intro h; linarith)]

/-- Witness for the amended C2: the score equation discharged at the
non-empty group `[exampleRow]`. -/
theorem c2_risk_score_and_classification_witness :
    riskScore [exampleRow] =
      round2 (round2 (mean ([exampleRow].map trir)) * (4 / 10) +
        round2 (mean ([exampleRow].map dartRate)) * (3 / 10) +
        round2 (mean ([exampleRow].map fatalityRate)) * (3 / 10)) :=
  c2_risk_score_and_classification.1 [exampleRow] (by simp)

/-- Counterexample to C5 as stated: winsorization is not idempotent.  On
the two-row table with hours [0, 100], the first pass clips hours to
[0, 99] (99th percentile of [0, 100] with linear interpolation is 99);
the second pass recomputes the 99th percentile on [0, 99], getting 98.01,
and clips again, changing the hours column. -/
theorem c5_not_idempotent_counterexample :
    winsorize (winsorize [c5RowA, c5RowB]) ≠ winsorize [c5RowA, c5RowB] := by
  have h : ⌊(99 / 100 * ((2 : ℚ) - 1))⌋ = 0 := by rw [Int.floor_eq_iff]; norm_num
  norm_num [winsorize, clipCol, quantile99, sortQ, List.insertionSort, List.orderedInsert, h,
    c5RowA, c5RowB, setEmployees, setHours, setInjuries, setDafwDays, setDjtrDays, Row.mk.injEq]

/-- C6 as amended: for a sector whose per-year group list has at least
two (necessarily distinct) years, the fitted trend slope is the
ordinary-least-squares slope of its (year, mean TRIR) pairs, and the
direction is Worsening iff slope > 0.1, Improving iff slope < -0.1, and
Stable otherwise; for a sector with a single year `(x, y)` the slope is
the degenerate minimum-norm fit value `y / (2·x)` — nonzero whenever the
year's mean TRIR is nonzero, not 0 as claimed — and its direction is
nevertheless Stable whenever `250 ≤ year` and `0 ≤ mean TRIR ≤ 50` (both
always hold in the pipeline: calendar years and the TRIR ≤ 50 filter). -/
theorem c6_trend_slope_rules :
    (∀ rows : List Row, 2 ≤ (yearlyMeans rows).length →
      sectorSlope rows = olsSlope (yearlyMeans rows)) ∧
    (∀ s : ℚ, trendDirection s = Trend.worsening ↔ 1 / 10 < s) ∧
    (∀ s : ℚ, trendDirection s = Trend.improving ↔ s < -(1 / 10)) ∧
    (∀ s : ℚ, trendDirection s = Trend.stable ↔ -(1 / 10) ≤ s ∧ s ≤ 1 / 10) ∧
    (∀ rows : List Row, ∀ x y : ℚ, yearlyMeans rows = [(x, y)] → x ≠ 0 →
      sectorSlope rows = y / (2 * x)) ∧
    (∀ rows : List Row, ∀ x y : ℚ, yearlyMeans rows = [(x, y)] →
      250 ≤ x → 0 ≤ y → y ≤ 50 → trendDirection (sectorSlope rows) = Trend.stable) := by
  refine ⟨?_, fun s => ?_, fun s => ?_, fun s => ?_, ?_, ?_⟩
  · intro rows hlen
    unfold sectorSlope
    have hnd : ((yearlyMeans rows).map (·.1)).Nodup := yearlyMeans_nodup_fst rows
    rcases hpts : yearlyMeans rows with - | ⟨p, - | ⟨q, rest⟩⟩
    · rw [hpts] at hlen; simp at hlen
    · rw [hpts] at hlen; simp at hlen
    · rw [hpts] at hnd
      have hne : p.1 ≠ q.1 := by
        simp only [List.map_cons, List.nodup_cons, List.mem_cons] at hnd
        exact fun h => hnd.1 (Or.inl h)
      exact polyfitSlope_eq_olsSlope (by simp) (ne_of_gt (designDet_pos rest hne))
  · unfold trendDirection
    split_ifs with h1 h2
    · exact iff_of_true rfl h1
    · simp only [reduceCtorEq, false_iff]; exact h1
    · simp only [reduceCtorEq, false_iff]; exact h1
  · unfold trendDirection
    split_ifs with h1 h2
    · simp only [reduceCtorEq, false_iff]; intro hc; linarith
    · exact iff_of_true rfl h2
    · simp only [reduceCtorEq, false_iff]; exact h2
  · unfold trendDirection
    split_ifs with h1 h2
    · simp only [reduceCtorEq, false_iff]
      rintro ⟨-, hle⟩; linarith
    · simp only [reduceCtorEq, false_iff]
      rintro ⟨hge, -⟩; linarith
    · push_neg at h1 h2
      simp only [true_iff]
      exact ⟨h2, h1⟩
  · intro rows x y heq hx
    unfold sectorSlope
    rw [heq]
    exact polyfitSlope_single x y hx
  · intro rows x y heq hx hy0 hy50
    have hxne : x ≠ 0 := by intro h; rw [h] at hx; norm_num at hx
    have hslope : sectorSlope rows = y / (2 * x) := by
      unfold sectorSlope; rw [heq]; exact polyfitSlope_single x y hxne
    rw [hslope]
    have h2x : (0 : ℚ) < 2 * x := by linarith
    have hle : y / (2 * x) ≤ 1 / 10 := by
      rw [div_le_iff₀ h2x]
      linarith
    have hge : 0 ≤ y / (2 * x) := div_nonneg hy0 (by linarith)
    unfold trendDirection
    rw [if_neg (not_lt.mpr hle), if_neg (not_lt.mpr (by linarith))]

/-- Counterexample to C6 as stated: a sector with a single year of data
(one distinct year, mean TRIR 10) gets the nonzero degenerate-fit slope
10 / 4036, not the claimed slope 0. -/
theorem c6_single_year_counterexample :
    (yearlyMeans c6OneYear).length = 1 ∧ sectorSlope c6OneYear ≠ 0 := by
  refine ⟨by rw [yearlyMeans_c6OneYear]; rfl, ?_⟩
  unfold sectorSlope
  rw [yearlyMeans_c6OneYear, polyfitSlope_single 2018 10 (by norm_num)]
  norm_num

/-- Witness for the amended C6, discharged at the three-year sector with
TRIR means [1, 2, 3] (OLS slope 1, Worsening) and at the one-year
sector. -/
theorem c6_trend_slope_rules_witness :
    sectorSlope c6ThreeYears = olsSlope (yearlyMeans c6ThreeYears) ∧
    trendDirection 1 = Trend.worsening ∧
    sectorSlope c6OneYear = 10 / (2 * 2018) ∧
    trendDirection (sectorSlope c6OneYear) = Trend.stable := by
  refine ⟨c6_trend_slope_rules.1 c6ThreeYears (by rw [yearlyMeans_c6ThreeYears]; norm_num),
    (c6_trend_slope_rules.2.1 1).mpr (by norm_num),
    c6_trend_slope_rules.2.2.2.2.1 c6OneYear 2018 10 yearlyMeans_c6OneYear (by norm_num),
    c6_trend_slope_rules.2.2.2.2.2 c6OneYear 2018 10 yearlyMeans_c6OneYear (by norm_num)
      (by norm_num) (by norm_num)⟩

/-- C9: after the implausibility-filter pass every remaining row has
positive employees and positive hours — a row with zero employees has
implied hours-per-employee 0 (the `np.where` else-branch), which the
below-1500 mask rejects even when hours are also zero, and a row with
positive employees and zero hours likewise has ratio 0 — so on filtered
data the employee- and hours-guarded metric formulas always take their
division branch, never the denominator-zero branch. -/
theorem c9_filter_forces_positive_denominators :
    ∀ t : List Row, ∀ r ∈ filterImpossible t,
      0 < r.employees ∧ 0 < r.hours ∧
      injuryRate r = r.injuries / r.employees * 100 ∧
      trir r = r.injuries / r.hours * 200000 ∧
      ltifr r = r.dafwCases / r.hours * 1000000 ∧
      dartRate r = (r.dafwCases + r.djtrCases) / r.hours * 200000 ∧
      fatalityRate r = r.deaths / r.employees * 100000 := by
  intro t r hr
  obtain ⟨he, hh, -, -⟩ := survivor_bounds hr
  refine ⟨he, hh, ?_, ?_, ?_, ?_, ?_⟩
  · unfold injuryRate; rw [if_pos he]
  · unfold trir; rw [if_pos hh]
  · unfold ltifr; rw [if_pos hh]
  · unfold dartRate; rw [if_pos hh]
  · unfold fatalityRate; rw [if_pos he]

/-- Witness for C9, discharged at a surviving one-row table. -/
theorem c9_filter_forces_positive_denominators_witness :
    0 < okRow.employees ∧ 0 < okRow.hours ∧
      injuryRate okRow = okRow.injuries / okRow.employees * 100 ∧
      trir okRow = okRow.injuries / okRow.hours * 200000 ∧
      ltifr okRow = okRow.dafwCases / okRow.hours * 1000000 ∧
      dartRate okRow = (okRow.dafwCases + okRow.djtrCases) / okRow.hours * 200000 ∧
      fatalityRate okRow = okRow.deaths / okRow.employees * 100000 :=
  c9_filter_forces_positive_denominators [okRow] okRow
    (by rw [filterImpossible_okRow]; exact List.mem_singleton.mpr rfl)

/-- C4: winsorization removes no rows, and afterwards every value in each
of the five designated numeric columns is at most that column's 99th
percentile computed on the post-implausibility-filter, pre-clipping data
(clipping one column does not disturb the later columns' percentiles:
`winsorize_eq_map`). -/
theorem c4_winsorize_caps_at_p99 :
    ∀ t : List Row,
      (winsorize (filterImpossible t)).length = (filterImpossible t).length ∧
      ∀ r ∈ winsorize (filterImpossible t),
        r.employees ≤ quantile99 ((filterImpossible t).map (·.employees)) ∧
        r.hours ≤ quantile99 ((filterImpossible t).map (·.hours)) ∧
        r.injuries ≤ quantile99 ((filterImpossible t).map (·.injuries)) ∧
        r.dafwDays ≤ quantile99 ((filterImpossible t).map (·.dafwDays)) ∧
        r.djtrDays ≤ quantile99 ((filterImpossible t).map (·.djtrDays)) := by
  intro t
  constructor
  · rw [winsorize_eq_map]
    exact List.length_map _ _
  · intro r hr
    rw [winsorize_eq_map] at hr
    obtain ⟨r0, -, rfl⟩ := List.mem_map.mp hr
    exact ⟨min_le_right _ _, min_le_right _ _, min_le_right _ _, min_le_right _ _,
      min_le_right _ _⟩

/-- Witness for C4, discharged at a surviving one-row table. -/
theorem c4_winsorize_caps_at_p99_witness :
    (winsorize (filterImpossible [okRow])).length = (filterImpossible [okRow]).length ∧
      okRow.employees ≤ quantile99 ((filterImpossible [okRow]).map (·.employees)) := by
  have hmem : okRow ∈ winsorize (filterImpossible [okRow]) := by
    rw [filterImpossible_okRow, winsorize_okRow]
    exact List.mem_singleton.mpr rfl
  exact ⟨(c4_winsorize_caps_at_p99 [okRow]).1,
    ((c4_winsorize_caps_at_p99 [okRow]).2 okRow hmem).1⟩

/-- C3: for every row of the cleaned table — after the implausibility
filter and winsorization (the later cleaning steps only drop rows or
rewrite text fields) — with positive employees, the implied
hours-per-employee ratio still lies in [1500, 4000].  Clipping preserves
the ratio bounds because order statistics, and hence the interpolated
99th percentiles, inherit the rowwise bounds `1500·E ≤ H ≤ 4000·E`
(`quantile99_scale_le`). -/
theorem c3_hours_per_employee_bounds :
    ∀ t : List Row, ∀ r ∈ winsorize (filterImpossible t), 0 < r.employees →
      1500 ≤ r.hours / r.employees ∧ r.hours / r.employees ≤ 4000 := by
  intro t r hr hpos
  rw [winsorize_eq_map] at hr
  obtain ⟨r0, hr0, rfl⟩ := List.mem_map.mp hr
  obtain ⟨he0, hh0, hle, hge⟩ := survivor_bounds hr0
  have hcap_low : 1500 * quantile99 ((filterImpossible t).map (·.employees)) ≤
      1 * quantile99 ((filterImpossible t).map (·.hours)) :=
    quantile99_scale_le (by norm_num) (by norm_num) fun r hr => by
      have := (survivor_bounds hr).2.2.1
      linarith
  have hcap_high : 1 * quantile99 ((filterImpossible t).map (·.hours)) ≤
      4000 * quantile99 ((filterImpossible t).map (·.employees)) :=
    quantile99_scale_le (by norm_num) (by norm_num) fun r hr => by
      have := (survivor_bounds hr).2.2.2
      linarith
  rw [one_mul] at hcap_low hcap_high
  set cE := quantile99 ((filterImpossible t).map (·.employees)) with hcE
  set cH := quantile99 ((filterImpossible t).map (·.hours)) with hcH
  have hE : (capFn (filterImpossible t) r0).employees = min r0.employees cE := rfl
  have hH : (capFn (filterImpossible t) r0).hours = min r0.hours cH := rfl
  have h1 : 1500 * min r0.employees cE ≤ min r0.hours cH := by
    rcases le_total r0.hours cH with h | h
    · rw [min_eq_left h]
      calc 1500 * min r0.employees cE ≤ 1500 * r0.employees :=
        mul_le_mul_of_nonneg_left (min_le_left _ _) (by norm_num)
      _ ≤ r0.hours := hle
    · rw [min_eq_right h]
      calc 1500 * min r0.employees cE ≤ 1500 * cE :=
        mul_le_mul_of_nonneg_left (min_le_right _ _) (by norm_num)
      _ ≤ cH := hcap_low
  have h2 : min r0.hours cH ≤ 4000 * min r0.employees cE := by
    rcases le_total r0.employees cE with h | h
    · rw [min_eq_left h]
      calc min r0.hours cH ≤ r0.hours := min_le_left _ _
      _ ≤ 4000 * r0.employees := hge
    · rw [min_eq_right h]
      calc min r0.hours cH ≤ cH := min_le_right _ _
      _ ≤ 4000 * cE := hcap_high
  rw [hE] at hpos
  constructor
  · rw [hH, hE, le_div_iff₀ hpos]
    linarith
  · rw [hH, hE, div_le_iff₀ hpos]
    linarith

/-- Witness for C3, discharged at a surviving one-row table. -/
theorem c3_hours_per_employee_bounds_witness :
    0 < okRow.employees ∧ 1500 ≤ okRow.hours / okRow.employees ∧
      okRow.hours / okRow.employees ≤ 4000 := by
  have hmem : okRow ∈ winsorize (filterImpossible [okRow]) := by
    rw [filterImpossible_okRow, winsorize_okRow]
    exact List.mem_singleton.mpr rfl
  have hpos : 0 < okRow.employees := by norm_num [okRow]
  exact ⟨hpos, (c3_hours_per_employee_bounds [okRow] okRow hmem hpos).1,
    (c3_hours_per_employee_bounds [okRow] okRow hmem hpos).2⟩

/-- C5 as amended: winsorization is not idempotent in general, but a
second application of the winsorization step removes no rows and never
increases any value: each of
the five columns of the re-winsorized table is pointwise ≤ the
corresponding column after the first pass (so the first pass's 99th
percentile caps keep holding). -/
theorem c5_second_pass_monotone :
    ∀ t : List Row,
      (winsorize (winsorize t)).length = (winsorize t).length ∧
      List.Forall₂ (· ≤ ·) ((winsorize (winsorize t)).map (·.employees))
        ((winsorize t).map (·.employees)) ∧
      List.Forall₂ (· ≤ ·) ((winsorize (winsorize t)).map (·.hours))
        ((winsorize t).map (·.hours)) ∧
      List.Forall₂ (· ≤ ·) ((winsorize (winsorize t)).map (·.injuries))
        ((winsorize t).map (·.injuries)) ∧
      List.Forall₂ (· ≤ ·) ((winsorize (winsorize t)).map (·.dafwDays))
        ((winsorize t).map (·.dafwDays)) ∧
      List.Forall₂ (· ≤ ·) ((winsorize (winsorize t)).map (·.djtrDays))
        ((winsorize t).map (·.djtrDays)) := by
  intro t
  refine ⟨by rw [winsorize_eq_map (winsorize t)]; exact List.length_map _ _,
    winsorize_col_pointwise_le _ _ fun r => min_le_left _ _,
    winsorize_col_pointwise_le _ _ fun r => min_le_left _ _,
    winsorize_col_pointwise_le _ _ fun r => min_le_left _ _,
    winsorize_col_pointwise_le _ _ fun r => min_le_left _ _,
    winsorize_col_pointwise_le _ _ fun r => min_le_left _ _⟩
